import Mathlib

/-!
# Verification of the Hyperledger Fabric student-records REST service

A shallow embedding, in Lean, of the three Go source files of the
repository: the `studentrecords` chaincode (the `SmartContract` with
`InitLedger` / `CreateStudent` / `ReadStudent` / `GetAllStudents` /
`StudentExists`), the Gin REST server (`rest-api.go`), and the gateway
example client (its `exampleErrorHandling` and connection setup).

The chaincode's world state is modelled as an association list from keys
to stored byte strings; `json.Marshal` of the `Student` struct is modelled
by `marshalStudent`, which produces the canonical Go encoding
(fields in declaration order `id`, `name`, `branch`, `cgpa`, with `"` and
`\` escaped; the HTML escaping Go additionally applies to `<`, `>`, `&`
does not affect invertibility and is omitted), and `json.Unmarshal` into a
`Student` is modelled by `unmarshalStudent`, a decoder for that canonical
encoding.
-/

/-- Student record as declared in the chaincode (`part_001`): JSON fields
`id`, `name`, `branch`, `cgpa`, all strings. -/
structure Student where
  id : String
  name : String
  branch : String
  cgpa : String
deriving DecidableEq, Repr

/-- JSON string escaping for one character: `"` and `\` get a backslash,
every other character is passed through. -/
def escChar (c : Char) : List Char :=
  if c = '\"' ∨ c = '\\' then ['\\', c] else [c]

/-- JSON string escaping over a character list. -/
def escList (cs : List Char) : List Char :=
  cs.flatMap escChar

/-- Literal opening of the marshalled student object, up to the opening
quote of the `id` value. -/
def jOpen : List Char := "\x7b\"id\":\"".data

/-- Literal between the closing quote of the `id` value and the opening
quote of the `name` value (the closing quote itself is separate). -/
def pName : List Char := ",\"name\":\"".data

/-- Literal between the `name` and `branch` values. -/
def pBranch : List Char := ",\"branch\":\"".data

/-- Literal between the `branch` and `cgpa` values. -/
def pCgpa : List Char := ",\"cgpa\":\"".data

/-- Closing brace of the marshalled student object. -/
def pClose : List Char := "\x7d".data

/-- Character-level canonical Go `json.Marshal` encoding of a `Student`. -/
def marshalChars (st : Student) : List Char :=
  jOpen ++ (escList st.id.data ++ ('\"' :: (pName ++ (escList st.name.data ++
    ('\"' :: (pBranch ++ (escList st.branch.data ++
    ('\"' :: (pCgpa ++ (escList st.cgpa.data ++ ('\"' :: pClose)))))))))))

/-- Model of `json.Marshal(student)` from the chaincode. -/
def marshalStudent (st : Student) : String :=
  String.mk (marshalChars st)

/-- Parse an escaped JSON string body up to (and consuming) its closing
unescaped quote; returns the decoded characters and the rest. -/
def parseEsc : List Char → Option (List Char × List Char)
  | [] => none
  | c :: rest =>
    if c = '\"' then some ([], rest)
    else if c = '\\' then
      match rest with
      | [] => none
      | d :: rest2 =>
        match parseEsc rest2 with
        | none => none
        | some p => some (d :: p.1, p.2)
    else
      match parseEsc rest with
      | none => none
      | some p => some (c :: p.1, p.2)

/-- Strip an exact literal prefix, returning the remainder. -/
def stripLit : List Char → List Char → Option (List Char)
  | [], rest => some rest
  | _ :: _, [] => none
  | l :: ls, c :: cs => if c = l then stripLit ls cs else none

/-- Model of `json.Unmarshal(bytes, &student)` from the chaincode,
as the decoder of the canonical `marshalStudent` encoding. -/
def unmarshalStudent (s : String) : Option Student :=
  (stripLit jOpen s.data).bind fun r1 =>
  (parseEsc r1).bind fun p1 =>
  (stripLit pName p1.2).bind fun r2 =>
  (parseEsc r2).bind fun p2 =>
  (stripLit pBranch p2.2).bind fun r3 =>
  (parseEsc r3).bind fun p3 =>
  (stripLit pCgpa p3.2).bind fun r4 =>
  (parseEsc r4).bind fun p4 =>
  (stripLit pClose p4.2).bind fun r5 =>
  if r5 = [] then
    some ⟨String.mk p1.1, String.mk p2.1, String.mk p3.1, String.mk p4.1⟩
  else none

theorem stripLit_pre (l r : List Char) : stripLit l (l ++ r) = some r := by
  induction l with
  | nil => rfl
  | cons c cs ih => simp [stripLit, ih]

theorem stripLit_self (l : List Char) : stripLit l l = some [] := by
  have h := stripLit_pre l []
  simpa using h

theorem parseEsc_quote (r : List Char) : parseEsc ('\"' :: r) = some ([], r) := by
  rw [parseEsc.eq_def]
  simp

theorem parseEsc_backslash (d : Char) (rest2 : List Char) :
    parseEsc ('\\' :: d :: rest2) =
      match parseEsc rest2 with
      | none => none
      | some p => some (d :: p.1, p.2) := by
  rw [parseEsc.eq_def]
  simp

theorem parseEsc_other (c : Char) (h1 : c ≠ '\"') (h2 : c ≠ '\\')
    (rest : List Char) :
    parseEsc (c :: rest) =
      match parseEsc rest with
      | none => none
      | some p => some (c :: p.1, p.2) := by
  rw [parseEsc.eq_def]
  simp [h1, h2]

theorem parseEsc_esc (cs r : List Char) :
    parseEsc (escList cs ++ '\"' :: r) = some (cs, r) := by
  induction cs with
  | nil =>
    simp only [escList, List.flatMap_nil, List.nil_append]
    exact parseEsc_quote r
  | cons c cs ih =>
    rcases eq_or_ne c '\"' with hq | hq
    · subst hq
      have hesc : escList ('\"' :: cs) = '\\' :: '\"' :: escList cs := by
        simp [escList, escChar]
      simp [hesc, parseEsc_backslash, ih]
    · rcases eq_or_ne c '\\' with hb | hb
      · subst hb
        have hesc : escList ('\\' :: cs) = '\\' :: '\\' :: escList cs := by
          simp [escList, escChar]
        simp [hesc, parseEsc_backslash, ih]
      · have hesc : escList (c :: cs) = c :: escList cs := by
          simp [escList, escChar, hq, hb]
        rw [hesc, List.cons_append, parseEsc_other c hq hb, ih]

theorem string_mk_data (s : String) : String.mk s.data = s := by
  cases s
  rfl

theorem unmarshal_marshal (st : Student) :
    unmarshalStudent (marshalStudent st) = some st := by
  obtain ⟨i, n, b, c⟩ := st
  simp [unmarshalStudent, marshalStudent, marshalChars, stripLit_pre,
    stripLit_self, parseEsc_esc, string_mk_data, List.append_assoc]

example : unmarshalStudent (marshalStudent ⟨"S1", "Alice", "CSE", "9.1"⟩) =
    some ⟨"S1", "Alice", "CSE", "9.1"⟩ := by decide

/-! ## World state and the chaincode functions

The chaincode stub (`ctx.GetStub()`) offers `GetState`, `PutState` and
`GetStateByRange`; the world state is modelled as an association list from
keys to stored byte strings, with `GetStateByRange("", "")` iterating all
keys in lexicographic order. -/

/-- World state of the `studentrecords` chaincode: key to stored bytes. -/
def Ledger : Type := List (String × String)

/-- Model of `ctx.GetStub().GetState(key)`. -/
def getState : Ledger → String → Option String
  | [], _ => none
  | (k2, v2) :: rest, k => if k2 = k then some v2 else getState rest k

/-- Model of `ctx.GetStub().PutState(key, value)`: overwrite or append. -/
def putState : Ledger → String → String → Ledger
  | [], k, v => [(k, v)]
  | (k2, v2) :: rest, k, v =>
    if k2 = k then (k, v) :: rest else (k2, v2) :: putState rest k v

/-- Chaincode `StudentExists`: true when `GetState(id)` is non-nil. -/
def StudentExists (l : Ledger) (id : String) : Bool :=
  (getState l id).isSome

/-- Chaincode `CreateStudent(ctx, id, name, branch, cgpa)`: errors when the
student already exists, else stores the marshalled record under `id`. -/
def CreateStudent (l : Ledger) (id name branch cgpa : String) :
    Except String Ledger :=
  if StudentExists l id then
    .error ("the student " ++ id ++ " already exists")
  else
    .ok (putState l id (marshalStudent ⟨id, name, branch, cgpa⟩))

/-- Chaincode `ReadStudent(ctx, id)`: errors when `GetState(id)` is nil,
else unmarshals the stored bytes into a `Student`. -/
def ReadStudent (l : Ledger) (id : String) : Except String Student :=
  match getState l id with
  | none => .error ("the student " ++ id ++ " does not exist")
  | some bytes =>
    match unmarshalStudent bytes with
    | none => .error "json unmarshal error"
    | some st => .ok st

/-- Insertion step for lexicographic ordering of world-state entries, as
produced by `GetStateByRange("", "")`. -/
def insertByKey (p : String × String) : List (String × String) →
    List (String × String)
  | [] => [p]
  | q :: rest => if q.1 < p.1 then q :: insertByKey p rest else p :: q :: rest

/-- World-state entries in the lexicographic key order in which
`GetStateByRange("", "")` yields them. -/
def rangeAll (l : Ledger) : List (String × String) :=
  l.foldr insertByKey []

/-- Iterator loop body of chaincode `GetAllStudents`: unmarshal each
yielded value, failing on the first unmarshal error. -/
def collectStudents : List (String × String) → Except String (List Student)
  | [] => .ok []
  | (_, v) :: rest =>
    match unmarshalStudent v with
    | none => .error "json unmarshal error"
    | some st =>
      match collectStudents rest with
      | .ok sts => .ok (st :: sts)
      | .error e => .error e

/-- Chaincode `GetAllStudents(ctx)`: range scan over all keys, unmarshalling
each stored record. -/
def GetAllStudents (l : Ledger) : Except String (List Student) :=
  collectStudents (rangeAll l)

/-- Chaincode `InitLedger(ctx)`: puts the two sample student records. -/
def InitLedger (l : Ledger) : Ledger :=
  putState (putState l "S1" (marshalStudent ⟨"S1", "Alice", "CSE", "9.1"⟩))
    "S2" (marshalStudent ⟨"S2", "Bob", "ECE", "8.5"⟩)

/-- Canonical `json.Marshal` of the `[]*Student` slice that chaincode
`GetAllStudents` returns as its payload. -/
def marshalStudentList (sts : List Student) : String :=
  "[" ++ String.intercalate "," (sts.map marshalStudent) ++ "]"

/-! ## Chaincode dispatch

The `contractapi` runtime routes an invocation `(functionName, args)` to
the public contract function of that name, checking that the number of
supplied string arguments matches the function's parameter count, and
returns an error for an unknown function name. Transactions whose chaincode
returns an error leave the world state unchanged (the endorsement fails and
nothing commits). -/

/-- Error produced by the `contractapi` runtime on an argument-count
mismatch. -/
def arityError (expected got : Nat) : String :=
  "incorrect number of params. Expected " ++ toString expected ++
    ", received " ++ toString got

/-- Error produced by the `contractapi` runtime for an unknown function. -/
def unknownFunctionError (fn : String) : String :=
  "Function " ++ fn ++ " not found in contract SmartContract"

/-- Dispatch of one transaction against the `studentrecords` chaincode:
returns the optional payload (or the chaincode error) together with the
resulting world state; a failed transaction leaves the state unchanged. -/
def invokeChaincode (l : Ledger) (fn : String) (args : List String) :
    Except String (Option String) × Ledger :=
  if fn = "InitLedger" then
    match args with
    | [] => (.ok none, InitLedger l)
    | _ => (.error (arityError 0 args.length), l)
  else if fn = "CreateStudent" then
    match args with
    | [id, n, b, c] =>
      match CreateStudent l id n b c with
      | .ok l2 => (.ok none, l2)
      | .error e => (.error e, l)
    | _ => (.error (arityError 4 args.length), l)
  else if fn = "ReadStudent" then
    match args with
    | [id] =>
      match ReadStudent l id with
      | .ok st => (.ok (some (marshalStudent st)), l)
      | .error e => (.error e, l)
    | _ => (.error (arityError 1 args.length), l)
  else if fn = "GetAllStudents" then
    match args with
    | [] =>
      match GetAllStudents l with
      | .ok sts => (.ok (some (marshalStudentList sts)), l)
      | .error e => (.error e, l)
    | _ => (.error (arityError 0 args.length), l)
  else if fn = "StudentExists" then
    match args with
    | [id] => (.ok (some (if StudentExists l id then "true" else "false")), l)
    | _ => (.error (arityError 1 args.length), l)
  else
    (.error (unknownFunctionError fn), l)

/-! ## Gateway transaction layer

The fabric-gateway client surfaces a failed `SubmitTransaction` as one of
four phase-tagged error types, each carrying the transaction ID:
`EndorseError`, `SubmitError`, `CommitStatusError` (whose cause can satisfy
`errors.Is(err, context.DeadlineExceeded)` on a commit-status timeout) and
`CommitError` (carrying the validation status code). Chaincode application
errors surface during endorsement as `EndorseError`. -/

/-- Phase-tagged transaction error of the gateway client. -/
inductive TransactionError where
  | endorseErr (transactionID : String) (message : String)
  | submitErr (transactionID : String) (message : String)
  | commitStatusErr (transactionID : String) (deadlineExceeded : Bool)
      (message : String)
  | commitErr (transactionID : String) (code : Int) (message : String)
deriving DecidableEq, Repr

/-- Transaction ID carried by every phase-tagged error. -/
def TransactionError.transactionID : TransactionError → String
  | .endorseErr tx _ => tx
  | .submitErr tx _ => tx
  | .commitStatusErr tx _ _ => tx
  | .commitErr tx _ _ => tx

/-- Submission phase of the four-phase submit protocol. -/
inductive TxPhase where
  | endorsePhase
  | submitPhase
  | commitStatusPhase
  | commitPhase
deriving DecidableEq, Repr

/-- Phase tag of a transaction error. -/
def TransactionError.phase : TransactionError → TxPhase
  | .endorseErr _ _ => .endorsePhase
  | .submitErr _ _ => .submitPhase
  | .commitStatusErr _ _ _ => .commitStatusPhase
  | .commitErr _ _ _ => .commitPhase

/-- Model of `contract.SubmitTransaction(fn, args...)` on the happy network
path: the chaincode runs at endorsement, and a chaincode error surfaces as
an `EndorseError` carrying the transaction ID, committing nothing. -/
def submitTransactionModel (l : Ledger) (txID : String) (fn : String)
    (args : List String) : Except TransactionError (Option String) × Ledger :=
  match invokeChaincode l fn args with
  | (.error msg, l2) => (.error (.endorseErr txID msg), l2)
  | (.ok payload, l2) => (.ok payload, l2)

/-- Model of `contract.EvaluateTransaction(fn, args...)`: the chaincode runs
against a single peer and only the payload is returned. -/
def evaluateTransactionModel (l : Ledger) (fn : String) (args : List String) :
    Except String (Option String) :=
  (invokeChaincode l fn args).1

/-- Evaluate-mode operations issued by this codebase. -/
inductive EvalOp where
  | readStudentOp (id : String)
  | getAllStudentsOp

/-- Chaincode dispatch of one evaluate-mode operation, with the resulting
world state made explicit. -/
def evalCall (l : Ledger) : EvalOp → Except String (Option String) × Ledger
  | .readStudentOp id => invokeChaincode l "ReadStudent" [id]
  | .getAllStudentsOp => invokeChaincode l "GetAllStudents" []

/-! ## Error classification (`exampleErrorHandling` in `rest-api.go`)

The example client classifies a failed submit by the `errors.As` chain over
the four error types, with the commit-status case split by
`errors.Is(err, context.DeadlineExceeded)`. -/

/-- Branch of `exampleErrorHandling` that handles a given error;
`unexpectedBranch` is its final `panic` branch. -/
inductive ErrorBranch where
  | endorseBranch
  | submitBranch
  | commitTimeoutBranch
  | commitStatusOtherBranch
  | commitFailBranch
  | unexpectedBranch
deriving DecidableEq, Repr

/-- Classification of a failed submit performed by `exampleErrorHandling`:
the `errors.As` chain over the four phase-tagged types, with the
commit-status case split on `errors.Is(err, context.DeadlineExceeded)`. -/
def classifyError : TransactionError → ErrorBranch
  | .endorseErr _ _ => .endorseBranch
  | .submitErr _ _ => .submitBranch
  | .commitStatusErr _ dl _ =>
    if dl then .commitTimeoutBranch else .commitStatusOtherBranch
  | .commitErr _ _ _ => .commitFailBranch

/-- Message printed by the chosen branch of `exampleErrorHandling`; every
branch interpolates the error's transaction ID. -/
def describeError (e : TransactionError) : String :=
  match e with
  | .endorseErr tx msg =>
    "Endorse error for transaction " ++ tx ++ ": " ++ msg
  | .submitErr tx msg =>
    "Submit error for transaction " ++ tx ++ ": " ++ msg
  | .commitStatusErr tx dl msg =>
    if dl then
      "Timeout waiting for transaction " ++ tx ++ " commit status: " ++ msg
    else
      "Error obtaining commit status for transaction " ++ tx ++ ": " ++ msg
  | .commitErr tx code msg =>
    "Transaction " ++ tx ++ " failed to commit with status " ++
      toString code ++ ": " ++ msg

/-! ## Configuration constants of `rest-api.go` -/

def mspID : String := "Org1MSP"

def cryptoPath : String :=
  "../../test-network/organizations/peerOrganizations/org1.example.com"

def certPath : String :=
  cryptoPath ++ "/users/User1@org1.example.com/msp/signcerts"

def keyPath : String :=
  cryptoPath ++ "/users/User1@org1.example.com/msp/keystore"

def tlsCertPath : String :=
  cryptoPath ++ "/peers/peer0.org1.example.com/tls/ca.crt"

def peerEndpoint : String := "dns:///localhost:7051"

def gatewayPeer : String := "peer0.org1.example.com"

/-! ## Credential loading (`readFirstFile`, `newIdentity`, `newSign`)

The filesystem is modelled abstractly: `openDir` is `os.Open` followed by
`Readdirnames` (all entries, in directory order; `Readdirnames(1)` takes
the head), and `readFile` is `os.ReadFile`. PEM parsing
(`identity.CertificateFromPEM`, `identity.PrivateKeyFromPEM`) is a
library call and is passed in as a function. Go panics on these paths are
modelled as error returns. -/

/-- Abstract filesystem: directory listing and file reading. -/
structure FileSystem where
  openDir : String → Except String (List String)
  readFile : String → Except String String

/-- Model of Go `path.Join(dir, file)` for the non-empty components used
here. -/
def pathJoin (dir file : String) : String :=
  dir ++ "/" ++ file

/-- Credential-loading failure: the read phase (unreadable or empty
directory, unreadable file) or the PEM-parse phase. -/
inductive CredentialError where
  | readErr (message : String)
  | formatErr (message : String)
deriving DecidableEq, Repr

/-- Parsed X.509 certificate material, kept abstract. -/
structure Certificate where
  material : String
deriving DecidableEq, Repr

/-- Parsed private key material, kept abstract. -/
structure PrivateKey where
  material : String
deriving DecidableEq, Repr

/-- The `identity.X509Identity` built by `newIdentity`. -/
structure X509Identity where
  mspID : String
  certificate : Certificate
deriving DecidableEq, Repr

/-- The signing function value built by `newSign`, identified by the key it
is bound to. -/
structure Signer where
  key : PrivateKey
deriving DecidableEq, Repr

/-- Model of `readFirstFile(dirPath)`: reads the first directory entry.
`Readdirnames(1)` on an exhausted (empty) directory returns `io.EOF`. -/
def readFirstFile (fs : FileSystem) (dirPath : String) :
    Except String String :=
  match fs.openDir dirPath with
  | .error e => .error e
  | .ok [] => .error "EOF"
  | .ok (name :: _) => fs.readFile (pathJoin dirPath name)

/-- Model of `newIdentity()`: read the first file of `certPath`, parse it as
a PEM certificate, and build the X.509 identity for `mspID`. -/
def newIdentity (fs : FileSystem)
    (certFromPEM : String → Except String Certificate) :
    Except CredentialError X509Identity :=
  match readFirstFile fs certPath with
  | .error e => .error (.readErr e)
  | .ok pem =>
    match certFromPEM pem with
    | .error e => .error (.formatErr e)
    | .ok cert => .ok ⟨mspID, cert⟩

/-- Model of `newSign()`: read the first file of `keyPath`, parse it as a
PEM private key, and build the signing function. -/
def newSign (fs : FileSystem)
    (keyFromPEM : String → Except String PrivateKey) :
    Except CredentialError Signer :=
  match readFirstFile fs keyPath with
  | .error e => .error (.readErr e)
  | .ok pem =>
    match keyFromPEM pem with
    | .error e => .error (.formatErr e)
    | .ok key => .ok ⟨key⟩

/-! ## Secure channel builder (`newGrpcConnection`)

`x509.NewCertPool()` plus one `AddCert` gives a pool holding exactly the
peer's TLS certificate; `credentials.NewClientTLSFromCert(pool, gatewayPeer)`
pins that pool and the expected server name; `grpc.Dial` without a blocking
option is non-blocking — no network handshake happens at call time, so the
connection is modelled with `connected := false` regardless of whether the
peer is reachable. -/

/-- Certificate pool (`x509.CertPool`). -/
structure CertPool where
  certs : List Certificate
deriving DecidableEq, Repr

/-- Model of `x509.NewCertPool()`. -/
def newCertPool : CertPool := ⟨[]⟩

/-- Model of `pool.AddCert(cert)`. -/
def addCert (p : CertPool) (c : Certificate) : CertPool :=
  ⟨p.certs ++ [c]⟩

/-- Transport credentials built by `credentials.NewClientTLSFromCert`:
the pinned trust roots and the expected server name. -/
structure TransportCredentials where
  rootPool : CertPool
  serverName : String
deriving DecidableEq, Repr

/-- A gRPC client connection as configured at creation time; `connected`
records whether a network handshake has happened. -/
structure GrpcClientConn where
  target : String
  creds : TransportCredentials
  connected : Bool
deriving DecidableEq, Repr

/-- Model of `newGrpcConnection()`: read the TLS certificate file, parse it,
pool exactly that certificate, pin `gatewayPeer` as the expected server
name, and create the (not yet handshaken) client connection to
`peerEndpoint`. The `peerReachable` argument models actual reachability of
the peer; `grpc.Dial` does not consult it. -/
def newGrpcConnection (tlsFileContents : Except String String)
    (certFromPEM : String → Except String Certificate)
    (peerReachable : Bool) : Except String GrpcClientConn :=
  match tlsFileContents with
  | .error e => .error ("failed to read TLS certificate file: " ++ e)
  | .ok pem =>
    match certFromPEM pem with
    | .error e => .error e
    | .ok cert =>
      .ok ⟨peerEndpoint, ⟨addCert newCertPool cert, gatewayPeer⟩, false⟩

/-! ## Gateway session timeouts (`initFabricClient`)

Durations are modelled in nanoseconds, matching Go's `time.Duration`. -/

def nanosecond : Nat := 1

def second : Nat := 1000000000

def minute : Nat := 60 * second

/-- Per-phase timeout configuration passed to `client.Connect`. -/
structure GatewayTimeouts where
  evaluateTimeout : Nat
  endorseTimeout : Nat
  submitTimeout : Nat
  commitStatusTimeout : Nat
deriving DecidableEq, Repr

/-- Timeout options set by `initFabricClient`: `WithEvaluateTimeout(5s)`,
`WithEndorseTimeout(15s)`, `WithSubmitTimeout(5s)`,
`WithCommitStatusTimeout(1min)`. -/
def clientTimeouts : GatewayTimeouts :=
  ⟨5 * second, 15 * second, 5 * second, 1 * minute⟩

/-! ## REST layer (`rest-api.go`)

The Gin router of `setupRouter` and the six handlers. The REST server's
`Student` struct has five string fields (`id`, `name`, `department`,
`year`, `cgpa`); it is distinct from the chaincode's four-field `Student`
and is named `RestStudent` here. -/

/-- The `Student` struct of `rest-api.go`: JSON fields `id`, `name`,
`department`, `year`, `cgpa`. -/
structure RestStudent where
  id : String
  name : String
  department : String
  year : String
  cgpa : String
deriving DecidableEq, Repr

/-- Transaction function name submitted by the REST `createStudent`
handler. -/
def createStudentSubmitName : String := "CreateStudent"

/-- Argument list the REST `createStudent` handler passes to
`SubmitTransaction`, in source order, unchanged from the request body. -/
def createStudentSubmitArgs (s : RestStudent) : List String :=
  [s.id, s.name, s.department, s.year, s.cgpa]

/-- Parameter count of the chaincode's `CreateStudent` (after the
transaction context): `id`, `name`, `branch`, `cgpa`. -/
def chaincodeCreateStudentParamCount : Nat := 4

inductive HttpMethod where
  | get
  | post
  | put
  | delete
deriving DecidableEq, Repr

/-- Invocation mode a handler routes to: `EvaluateTransaction` or
`SubmitTransaction`. -/
inductive InvokeMode where
  | evaluateMode
  | submitMode
deriving DecidableEq, Repr

/-- One route of `setupRouter` together with the transaction name and
invocation mode its handler uses. -/
structure Route where
  method : HttpMethod
  path : String
  txnName : String
  mode : InvokeMode
deriving DecidableEq, Repr

/-- The six routes registered by `setupRouter`, each with the single
contract call its handler makes. -/
def apiRoutes : List Route :=
  [⟨.get, "/api/students", "GetAllStudents", .evaluateMode⟩,
   ⟨.get, "/api/students/:id", "ReadStudent", .evaluateMode⟩,
   ⟨.post, "/api/students", "CreateStudent", .submitMode⟩,
   ⟨.put, "/api/students/:id", "UpdateStudent", .submitMode⟩,
   ⟨.delete, "/api/students/:id", "DeleteStudent", .submitMode⟩,
   ⟨.post, "/api/init", "InitLedger", .submitMode⟩]

/-! ## Server state and request handling (for the session-immutability
invariant)

`initFabricClient` assigns the package-level `gw`, `network` and `contract`
once and reads the credential files; the request handlers only call
`EvaluateTransaction` / `SubmitTransaction` on `contract` — none of them
reassigns the references or reads a credential file. The handles are
modelled as opaque tokens, and credential reads as a counter that only
initialization increments. -/

/-- The package-level Fabric references set by `initFabricClient`. -/
structure FabricRefs where
  gwHandle : Nat
  networkHandle : Nat
  contractHandle : Nat
  channelName : String
  chaincodeName : String
deriving DecidableEq, Repr

/-- Whole server state: the Fabric references, the number of credential
file reads performed so far, and the ledger world state. -/
structure ServerState where
  refs : FabricRefs
  credentialReads : Nat
  ledger : Ledger

/-- Model of `initFabricClient`: reads the certificate, key and TLS files
(three credential reads), resolves channel and chaincode names from the
environment with their defaults, and sets the references once. -/
def initFabricClient (env : String → Option String)
    (gwHandle networkHandle contractHandle : Nat) (l : Ledger) :
    ServerState :=
  let chaincodeName :=
    match env "CHAINCODE_NAME" with
    | some s => if s = "" then "studentrecords" else s
    | none => "studentrecords"
  let channelName :=
    match env "CHANNEL_NAME" with
    | some s => if s = "" then "mychannel" else s
    | none => "mychannel"
  ⟨⟨gwHandle, networkHandle, contractHandle, channelName, chaincodeName⟩,
    3, l⟩

/-- An HTTP request hitting one of the six routes, with its parsed
parameters. -/
inductive RestRequest where
  | getAllReq
  | getByIdReq (id : String)
  | createReq (body : RestStudent)
  | updateReq (id : String) (body : RestStudent)
  | deleteReq (id : String)
  | initLedgerReq

/-- An HTTP response: status code and body. -/
structure RestResponse where
  status : Nat
  body : String

/-- Model of one handler invocation: each handler makes its single
`EvaluateTransaction` / `SubmitTransaction` call and serializes the
outcome; only the ledger component of the server state can change. -/
def handleRequest (s : ServerState) (r : RestRequest) (txID : String) :
    RestResponse × ServerState :=
  match r with
  | .getAllReq =>
    match evaluateTransactionModel s.ledger "GetAllStudents" [] with
    | .ok payload => (⟨200, (payload.getD "")⟩, s)
    | .error e => (⟨500, "Failed to get students: " ++ e⟩, s)
  | .getByIdReq id =>
    match evaluateTransactionModel s.ledger "ReadStudent" [id] with
    | .ok payload => (⟨200, (payload.getD "")⟩, s)
    | .error e => (⟨404, "Student not found: " ++ e⟩, s)
  | .createReq body =>
    match submitTransactionModel s.ledger txID createStudentSubmitName
        (createStudentSubmitArgs body) with
    | (.ok _, l2) => (⟨201, ""⟩, ⟨s.refs, s.credentialReads, l2⟩)
    | (.error e, l2) =>
      (⟨500, "Failed to create student: " ++ describeError e⟩,
        ⟨s.refs, s.credentialReads, l2⟩)
  | .updateReq id body =>
    match submitTransactionModel s.ledger txID "UpdateStudent"
        [id, body.name, body.department, body.year, body.cgpa] with
    | (.ok _, l2) => (⟨200, ""⟩, ⟨s.refs, s.credentialReads, l2⟩)
    | (.error e, l2) =>
      (⟨500, "Failed to update student: " ++ describeError e⟩,
        ⟨s.refs, s.credentialReads, l2⟩)
  | .deleteReq id =>
    match submitTransactionModel s.ledger txID "DeleteStudent" [id] with
    | (.ok _, l2) =>
      (⟨200, "Student " ++ id ++ " deleted successfully"⟩,
        ⟨s.refs, s.credentialReads, l2⟩)
    | (.error e, l2) =>
      (⟨500, "Failed to delete student: " ++ describeError e⟩,
        ⟨s.refs, s.credentialReads, l2⟩)
  | .initLedgerReq =>
    match submitTransactionModel s.ledger txID "InitLedger" [] with
    | (.ok _, l2) =>
      (⟨200, "Ledger initialized successfully"⟩,
        ⟨s.refs, s.credentialReads, l2⟩)
    | (.error e, l2) =>
      (⟨500, "Failed to initialize ledger: " ++ describeError e⟩,
        ⟨s.refs, s.credentialReads, l2⟩)

/-- Sequential processing of a list of requests (each with its transaction
ID) by the running server. -/
def processRequests (s : ServerState) : List (RestRequest × String) →
    ServerState
  | [] => s
  | (r, tx) :: rest => processRequests (handleRequest s r tx).2 rest

/-! ## Helper lemmas -/

theorem getState_putState_same (l : Ledger) (k v : String) :
    getState (putState l k v) k = some v := by
  induction l with
  | nil => simp [putState, getState]
  | cons p rest ih =>
    obtain ⟨k2, v2⟩ := p
    by_cases hk : k2 = k
    · simp [putState, getState, hk]
    · simp [putState, getState, hk, ih]

theorem invoke_createStudent (l : Ledger) (id n b c : String) :
    invokeChaincode l "CreateStudent" [id, n, b, c] =
      match CreateStudent l id n b c with
      | .ok l2 => (.ok none, l2)
      | .error e => (.error e, l) := by
  simp [invokeChaincode]

theorem invoke_readStudent (l : Ledger) (id : String) :
    invokeChaincode l "ReadStudent" [id] =
      match ReadStudent l id with
      | .ok st => (.ok (some (marshalStudent st)), l)
      | .error e => (.error e, l) := by
  simp [invokeChaincode]

theorem invoke_getAllStudents (l : Ledger) :
    invokeChaincode l "GetAllStudents" [] =
      match GetAllStudents l with
      | .ok sts => (.ok (some (marshalStudentList sts)), l)
      | .error e => (.error e, l) := by
  simp [invokeChaincode]

theorem invoke_deleteStudent (l : Ledger) (id : String) :
    invokeChaincode l "DeleteStudent" [id] =
      (.error (unknownFunctionError "DeleteStudent"), l) := by
  simp [invokeChaincode]

theorem invoke_restCreate (l : Ledger) (s : RestStudent) :
    invokeChaincode l "CreateStudent" (createStudentSubmitArgs s) =
      (.error (arityError 4 5), l) := by
  simp [invokeChaincode, createStudentSubmitArgs]

/-! ## Claim theorems -/

/-- C1: on a state where `id` does not exist, a submit of
`CreateStudent(id, name, branch, cgpa)` succeeds and stores the marshalled
record under `id`; a subsequent evaluate of `ReadStudent(id)` returns bytes
that decode to exactly that record; submitting `CreateStudent` again with
the same `id` fails with the duplicate-key application error, surfaced as
an endorsement-phase error, and leaves the stored record unchanged. -/
theorem createStudent_readStudent_duplicate (l : Ledger)
    (id n b c n2 b2 c2 tx tx2 : String)
    (h : StudentExists l id = false) :
    submitTransactionModel l tx "CreateStudent" [id, n, b, c] =
      (.ok none, putState l id (marshalStudent ⟨id, n, b, c⟩)) ∧
    evaluateTransactionModel (putState l id (marshalStudent ⟨id, n, b, c⟩))
      "ReadStudent" [id] = .ok (some (marshalStudent ⟨id, n, b, c⟩)) ∧
    unmarshalStudent (marshalStudent ⟨id, n, b, c⟩) = some ⟨id, n, b, c⟩ ∧
    submitTransactionModel (putState l id (marshalStudent ⟨id, n, b, c⟩))
      tx2 "CreateStudent" [id, n2, b2, c2] =
      (.error (.endorseErr tx2 ("the student " ++ id ++ " already exists")),
        putState l id (marshalStudent ⟨id, n, b, c⟩)) ∧
    getState (putState l id (marshalStudent ⟨id, n, b, c⟩)) id =
      some (marshalStudent ⟨id, n, b, c⟩) := by
  have hput := getState_putState_same l id (marshalStudent ⟨id, n, b, c⟩)
  have hex : StudentExists (putState l id (marshalStudent ⟨id, n, b, c⟩))
      id = true := by
    simp [StudentExists, hput]
  refine ⟨?_, ?_, unmarshal_marshal _, ?_, hput⟩
  · simp [submitTransactionModel, invoke_createStudent, CreateStudent, h]
  · simp [evaluateTransactionModel, invoke_readStudent, ReadStudent, hput,
      unmarshal_marshal]
  · simp [submitTransactionModel, invoke_createStudent, CreateStudent, hex]

/-- Witness for C1 at the spec's end-to-end scenario record. -/
theorem createStudent_readStudent_duplicate_witness :
    StudentExists ([] : Ledger) "S1" = false ∧
    submitTransactionModel ([] : Ledger) "tx1" "CreateStudent"
        ["S1", "Alice", "CSE", "9.1"] =
      (.ok none,
        putState ([] : Ledger) "S1"
          (marshalStudent ⟨"S1", "Alice", "CSE", "9.1"⟩)) :=
  ⟨by decide,
    (createStudent_readStudent_duplicate ([] : Ledger) "S1" "Alice" "CSE"
      "9.1" "Eve" "ECE" "8.0" "tx1" "tx2" (by decide)).1⟩

/-- C2: the REST `createStudent` handler submits `CreateStudent` with the
five body fields `id`, `name`, `department`, `year`, `cgpa`, unchanged and
in that order, while the chaincode's `CreateStudent` takes four parameters;
hence every create issued through the REST handler is rejected by the
contract dispatch with an argument-count error (and the handler reports
a 500), on every ledger state. -/
theorem restCreate_arity_mismatch (s : RestStudent) (st : ServerState)
    (l : Ledger) (tx : String) :
    createStudentSubmitName = "CreateStudent" ∧
    createStudentSubmitArgs s =
      [s.id, s.name, s.department, s.year, s.cgpa] ∧
    (createStudentSubmitArgs s).length = 5 ∧
    chaincodeCreateStudentParamCount = 4 ∧
    invokeChaincode l createStudentSubmitName (createStudentSubmitArgs s) =
      (.error (arityError 4 5), l) ∧
    (handleRequest st (.createReq s) tx).1.status = 500 := by
  refine ⟨rfl, rfl, rfl, rfl, invoke_restCreate l s, ?_⟩
  simp [handleRequest, submitTransactionModel, createStudentSubmitName,
    invoke_restCreate]

/-- C3: the two evaluate operations issued by this codebase (`ReadStudent`
with any id, `GetAllStudents`) leave the world state unchanged, and issuing
the same evaluate call twice with no intervening submit yields identical
results. -/
theorem evaluate_preserves_state (l : Ledger) (op : EvalOp) :
    (evalCall l op).2 = l ∧
    evalCall (evalCall l op).2 op = evalCall l op := by
  have hpres : (evalCall l op).2 = l := by
    cases op with
    | readStudentOp id =>
      rw [evalCall, invoke_readStudent]
      cases ReadStudent l id <;> simp
    | getAllStudentsOp =>
      rw [evalCall, invoke_getAllStudents]
      cases GetAllStudents l <;> simp
  exact ⟨hpres, by rw [hpres]⟩

/-- C4: every failed submit carries exactly one of the four phase tags
(endorse, submit, commit status, commit), each with a transaction ID, and
the `exampleErrorHandling` classification sends `CommitStatusError` with a
deadline-exceeded cause to a branch distinct from the `CommitError` branch
(and never reaches its unexpected-type branch). -/
theorem submit_error_taxonomy (e : TransactionError) :
    classifyError e ≠ .unexpectedBranch ∧
    (∀ tx msg, e = .endorseErr tx msg →
      e.transactionID = tx ∧ e.phase = .endorsePhase ∧
        classifyError e = .endorseBranch) ∧
    (∀ tx msg, e = .submitErr tx msg →
      e.transactionID = tx ∧ e.phase = .submitPhase ∧
        classifyError e = .submitBranch) ∧
    (∀ tx dl msg, e = .commitStatusErr tx dl msg →
      e.transactionID = tx ∧ e.phase = .commitStatusPhase ∧
        classifyError e =
          (if dl then .commitTimeoutBranch else .commitStatusOtherBranch)) ∧
    (∀ tx code msg, e = .commitErr tx code msg →
      e.transactionID = tx ∧ e.phase = .commitPhase ∧
        classifyError e = .commitFailBranch) ∧
    ErrorBranch.commitTimeoutBranch ≠ ErrorBranch.commitFailBranch := by
  refine ⟨?_, ?_, ?_, ?_, ?_, by decide⟩
  · cases e with
    | commitStatusErr tx dl msg => cases dl <;> simp [classifyError]
    | _ => simp [classifyError]
  all_goals
    intro tx
    intros
    subst e
    simp_all [classifyError, TransactionError.transactionID,
      TransactionError.phase]

/-- Witness for C4: a commit-status timeout and a commit failure land in
their two distinct branches. -/
theorem submit_error_taxonomy_witness :
    ((TransactionError.commitStatusErr "tx7" true "m").transactionID =
        "tx7" ∧
      (TransactionError.commitStatusErr "tx7" true "m").phase =
        .commitStatusPhase ∧
      classifyError (.commitStatusErr "tx7" true "m") =
        (if true then .commitTimeoutBranch
         else .commitStatusOtherBranch)) ∧
    ((TransactionError.commitErr "tx8" 11 "m2").transactionID = "tx8" ∧
      (TransactionError.commitErr "tx8" 11 "m2").phase = .commitPhase ∧
      classifyError (.commitErr "tx8" 11 "m2") = .commitFailBranch) :=
  ⟨(submit_error_taxonomy (.commitStatusErr "tx7" true "m")).2.2.2.1
      "tx7" true "m" rfl,
    (submit_error_taxonomy (.commitErr "tx8" 11 "m2")).2.2.2.2.1
      "tx8" 11 "m2" rfl⟩

/-- C5: submitting a delete of an id that is not in the ledger fails with
an application-level error raised by the chaincode dispatch (the chaincode
has no `DeleteStudent` function), surfaced at the endorsement phase — the
phase where chaincode application errors appear — not as a transport
failure; the state is unchanged. -/
theorem delete_nonexistent_application_error (l : Ledger) (tx id : String)
    (h : StudentExists l id = false) :
    submitTransactionModel l tx "DeleteStudent" [id] =
      (.error (.endorseErr tx (unknownFunctionError "DeleteStudent")), l) ∧
    (TransactionError.endorseErr tx
      (unknownFunctionError "DeleteStudent")).phase = .endorsePhase ∧
    classifyError (.endorseErr tx (unknownFunctionError "DeleteStudent")) =
      .endorseBranch := by
  refine ⟨?_, rfl, rfl⟩
  simp [submitTransactionModel, invoke_deleteStudent]

/-- Witness for C5 on the empty ledger. -/
theorem delete_nonexistent_application_error_witness :
    submitTransactionModel ([] : Ledger) "tx3" "DeleteStudent" ["S9"] =
      (.error (.endorseErr "tx3" (unknownFunctionError "DeleteStudent")),
        ([] : Ledger)) :=
  (delete_nonexistent_application_error ([] : Ledger) "tx3" "S9"
    (by decide)).1

/-- C6: credential loading reads the first directory entry and parses it as
PEM: an unreadable directory, an empty directory, or an unreadable file
yields a read error; a parse failure yields a format error; otherwise
`newIdentity` returns the identity for `mspID` built from the first file,
and `newSign` the signer, under the same directory-resolution contract. -/
theorem credential_loading_contract (fs : FileSystem)
    (certFromPEM : String → Except String Certificate)
    (keyFromPEM : String → Except String PrivateKey) :
    (∀ e, fs.openDir certPath = .error e →
      newIdentity fs certFromPEM = .error (.readErr e)) ∧
    (fs.openDir certPath = .ok [] →
      newIdentity fs certFromPEM = .error (.readErr "EOF")) ∧
    (∀ nm rest e, fs.openDir certPath = .ok (nm :: rest) →
      fs.readFile (pathJoin certPath nm) = .error e →
      newIdentity fs certFromPEM = .error (.readErr e)) ∧
    (∀ nm rest pem e, fs.openDir certPath = .ok (nm :: rest) →
      fs.readFile (pathJoin certPath nm) = .ok pem →
      certFromPEM pem = .error e →
      newIdentity fs certFromPEM = .error (.formatErr e)) ∧
    (∀ nm rest pem cert, fs.openDir certPath = .ok (nm :: rest) →
      fs.readFile (pathJoin certPath nm) = .ok pem →
      certFromPEM pem = .ok cert →
      newIdentity fs certFromPEM = .ok ⟨mspID, cert⟩) ∧
    (∀ e, fs.openDir keyPath = .error e →
      newSign fs keyFromPEM = .error (.readErr e)) ∧
    (fs.openDir keyPath = .ok [] →
      newSign fs keyFromPEM = .error (.readErr "EOF")) ∧
    (∀ nm rest e, fs.openDir keyPath = .ok (nm :: rest) →
      fs.readFile (pathJoin keyPath nm) = .error e →
      newSign fs keyFromPEM = .error (.readErr e)) ∧
    (∀ nm rest pem e, fs.openDir keyPath = .ok (nm :: rest) →
      fs.readFile (pathJoin keyPath nm) = .ok pem →
      keyFromPEM pem = .error e →
      newSign fs keyFromPEM = .error (.formatErr e)) ∧
    (∀ nm rest pem key, fs.openDir keyPath = .ok (nm :: rest) →
      fs.readFile (pathJoin keyPath nm) = .ok pem →
      keyFromPEM pem = .ok key →
      newSign fs keyFromPEM = .ok ⟨key⟩) := by
  refine ⟨?_, ?_, ?_, ?_, ?_, ?_, ?_, ?_, ?_, ?_⟩
  · intro e he
    simp [newIdentity, readFirstFile, he]
  · intro he
    simp [newIdentity, readFirstFile, he]
  · intro nm rest e hdir hfile
    simp [newIdentity, readFirstFile, hdir, hfile]
  · intro nm rest pem e hdir hfile hparse
    simp [newIdentity, readFirstFile, hdir, hfile, hparse]
  · intro nm rest pem cert hdir hfile hparse
    simp [newIdentity, readFirstFile, hdir, hfile, hparse]
  · intro e he
    simp [newSign, readFirstFile, he]
  · intro he
    simp [newSign, readFirstFile, he]
  · intro nm rest e hdir hfile
    simp [newSign, readFirstFile, hdir, hfile]
  · intro nm rest pem e hdir hfile hparse
    simp [newSign, readFirstFile, hdir, hfile, hparse]
  · intro nm rest pem key hdir hfile hparse
    simp [newSign, readFirstFile, hdir, hfile, hparse]

/-- Witness for C6: on a filesystem whose directories hold a single
credential file, loading succeeds with the identity built from it. -/
theorem credential_loading_contract_witness :
    newIdentity ⟨fun _ => .ok ["cred.pem"], fun _ => .ok "PEMDATA"⟩
        (fun s => .ok ⟨s⟩) = .ok ⟨mspID, ⟨"PEMDATA"⟩⟩ :=
  (credential_loading_contract
      ⟨fun _ => .ok ["cred.pem"], fun _ => .ok "PEMDATA"⟩
      (fun s => .ok ⟨s⟩) (fun s => .ok ⟨s⟩)).2.2.2.2.1
    "cred.pem" [] "PEMDATA" ⟨"PEMDATA"⟩ rfl rfl rfl

/-- C7: on success `newGrpcConnection` yields a connection whose trust pool
contains exactly the one parsed peer TLS certificate, whose expected server
name is `gatewayPeer`, and whose network handshake has not happened
(`connected = false`); the result does not depend on whether the peer is
reachable, so success does not guarantee reachability. -/
theorem grpc_connection_pinned (tls : Except String String)
    (certFromPEM : String → Except String Certificate) (r1 r2 : Bool) :
    newGrpcConnection tls certFromPEM r1 =
      newGrpcConnection tls certFromPEM r2 ∧
    (∀ pem cert, tls = .ok pem → certFromPEM pem = .ok cert →
      newGrpcConnection tls certFromPEM r1 =
        .ok ⟨peerEndpoint, ⟨⟨[cert]⟩, gatewayPeer⟩, false⟩) := by
  refine ⟨rfl, ?_⟩
  intro pem cert htls hparse
  subst htls
  simp [newGrpcConnection, hparse, addCert, newCertPool]

/-- Witness for C7 with a concrete parsed certificate, on an unreachable
peer. -/
theorem grpc_connection_pinned_witness :
    newGrpcConnection (.ok "TLSPEM") (fun s => .ok ⟨s⟩) false =
      .ok ⟨peerEndpoint, ⟨⟨[⟨"TLSPEM"⟩]⟩, gatewayPeer⟩, false⟩ :=
  (grpc_connection_pinned (.ok "TLSPEM") (fun s => .ok ⟨s⟩)
    false true).2 "TLSPEM" ⟨"TLSPEM"⟩ rfl rfl

/-- C8: every route registered by `setupRouter` whose method is GET is
routed to evaluate mode, every route with another method to submit mode,
and no route is routed to both modes. -/
theorem rest_routing_modes (r : Route) (h : r ∈ apiRoutes) :
    (r.method = .get ↔ r.mode = .evaluateMode) ∧
    (r.method ≠ .get ↔ r.mode = .submitMode) ∧
    ¬(r.mode = .evaluateMode ∧ r.mode = .submitMode) := by
  fin_cases h <;> exact ⟨by simp, by simp, by simp⟩

/-- Witness for C8 at the list-all-students route. -/
theorem rest_routing_modes_witness :
    ((Route.mk .get "/api/students" "GetAllStudents"
        .evaluateMode).method = .get ↔
      (Route.mk .get "/api/students" "GetAllStudents"
        .evaluateMode).mode = .evaluateMode) :=
  (rest_routing_modes ⟨.get, "/api/students", "GetAllStudents",
    .evaluateMode⟩ (by decide)).1

/-- C9: the gateway session is opened with the four per-phase timeouts of
the spec: evaluate 5 s, endorse 15 s, submit 5 s, commit status 60 s. -/
theorem gateway_timeouts_defaults :
    clientTimeouts.evaluateTimeout = 5 * second ∧
    clientTimeouts.endorseTimeout = 15 * second ∧
    clientTimeouts.submitTimeout = 5 * second ∧
    clientTimeouts.commitStatusTimeout = 60 * second := by
  refine ⟨rfl, rfl, rfl, ?_⟩
  norm_num [clientTimeouts, minute]

/-- C10: after `initFabricClient` completes, no request handler changes the
gateway/network/contract references or performs a credential read: over any
sequence of handled requests the references are unchanged and the
credential-read count stays at the three reads done at construction. -/
theorem session_refs_immutable (s : ServerState)
    (rs : List (RestRequest × String)) (env : String → Option String)
    (g nw ct : Nat) (l : Ledger) :
    (processRequests s rs).refs = s.refs ∧
    (processRequests s rs).credentialReads = s.credentialReads ∧
    (initFabricClient env g nw ct l).credentialReads = 3 ∧
    (processRequests (initFabricClient env g nw ct l) rs).credentialReads =
      3 := by
  have hstep : ∀ (s : ServerState) (r : RestRequest) (tx : String),
      (handleRequest s r tx).2.refs = s.refs ∧
      (handleRequest s r tx).2.credentialReads = s.credentialReads := by
    intro s r tx
    cases r <;> simp only [handleRequest] <;> split <;> simp
  have hall : ∀ (rs : List (RestRequest × String)) (s : ServerState),
      (processRequests s rs).refs = s.refs ∧
      (processRequests s rs).credentialReads = s.credentialReads := by
    intro rs
    induction rs with
    | nil => intro s; exact ⟨rfl, rfl⟩
    | cons p rest ih =>
      intro s
      obtain ⟨r, tx⟩ := p
      rw [processRequests]
      refine ⟨?_, ?_⟩
      · rw [(ih (handleRequest s r tx).2).1, (hstep s r tx).1]
      · rw [(ih (handleRequest s r tx).2).2, (hstep s r tx).2]
  have hinit : (initFabricClient env g nw ct l).credentialReads = 3 := by
    simp [initFabricClient]
  refine ⟨(hall rs s).1, (hall rs s).2, hinit, ?_⟩
  rw [(hall rs (initFabricClient env g nw ct l)).2, hinit]
